import Mathlib

/-!
Shallow embedding of the brand-content generator (main.py, query_chatgpt.py,
s3_uploader.py).  Python strings are modelled as `List Char` (the prompt
builder, which only concatenates literals and fields, uses `String`).
External effects (the LLM call, the local file write, the S3 provider) are
modelled as explicitly injected outcomes; `datetime.now()` timestamps are
passed in as parameters.
-/

/-- Convert a string literal to the `List Char` representation. -/
def cs (s : String) : List Char := s.toList

/-- The backtick character (code point 96). -/
def btick : Char := Char.ofNat 96

/-- The backslash character. -/
def bslash : Char := '\\'

/-- Character class `[\r\n]` used by the fence-stripping regexes. -/
def isCRLF (c : Char) : Bool := c == '\r' || c == '\n'

/-- Literal-pattern matcher: `dropPat p s` returns `some rest` when `s`
starts with the pattern `p`, with `rest` the remainder of `s`. -/
def dropPat : List Char → List Char → Option (List Char)
  | [], s => some s
  | _ :: _, [] => none
  | p :: ps, c :: s => if c = p then dropPat ps s else none

/-- Three backticks, the fenced-code marker. -/
def fence : List Char := [btick, btick, btick]

/-- One attempted match of the pattern  ^(3 backticks)(?:html)?[\r\n]*  at the
current position (query_chatgpt.py line 20).  Returns the multiline-^ flag for
the resume position (true iff the match ended with a line feed) and the rest
of the input after the match. -/
def fenceTail1 (s : List Char) : Option (Bool × List Char) :=
  match dropPat fence s with
  | none => none
  | some r1 =>
    let r2 := match dropPat (cs "html") r1 with
      | some r => r
      | none => r1
    let run := r2.takeWhile isCRLF
    let rest := r2.dropWhile isCRLF
    some (run.getLast? == some '\n', rest)

/-- Scanner for `re.sub` of the leading-fence pattern with `re.MULTILINE`
(query_chatgpt.py line 20): the boolean tracks whether the current position is
a line start (start of input or just after a line feed).  The fuel argument is
a structural-recursion device; each step consumes at least one character, so
the wrapper `sub1` always supplies enough. -/
def sub1F : Nat → Bool → List Char → List Char
  | 0, _, s => s
  | _ + 1, _, [] => []
  | f + 1, atLS, c :: s =>
    if atLS then
      match fenceTail1 (c :: s) with
      | some (nl, rest) => sub1F f nl rest
      | none => c :: sub1F f (c == '\n') s
    else
      c :: sub1F f (c == '\n') s

/-- Sanitizer step 1: strip leading fenced-code markers (query_chatgpt.py
line 20). -/
def sub1 (s : List Char) : List Char := sub1F s.length true s

/-- One attempted match of the pattern  [\r\n]*(3 backticks)$  with
`re.MULTILINE` at the current position (query_chatgpt.py line 21).  Since the
optional run consists only of CR/LF characters, the three backticks can only
start right after the maximal run; `$` is zero-width (end of input or just
before a line feed). -/
def fenceTail2 (s : List Char) : Option (List Char) :=
  match dropPat fence (s.dropWhile isCRLF) with
  | some rest => if rest.isEmpty || rest.head? == some '\n' then some rest else none
  | none => none

/-- Scanner for `re.sub` of the trailing-fence pattern (query_chatgpt.py
line 21).  The fuel argument is a structural-recursion device; each step
consumes at least one character. -/
def sub2F : Nat → List Char → List Char
  | 0, s => s
  | _ + 1, [] => []
  | f + 1, c :: s =>
    match fenceTail2 (c :: s) with
    | some rest => sub2F f rest
    | none => c :: sub2F f s

/-- Sanitizer step 2: strip trailing fenced-code markers (query_chatgpt.py
line 21). -/
def sub2 (s : List Char) : List Char := sub2F s.length s

/-- Emit a pending run of `k` newline characters, collapsed to two when the
run has length three or more (the replacement of the regex  \n{3,}  ->  two
newlines). -/
def emitNL (k : Nat) : List Char := List.replicate (if 3 ≤ k then 2 else k) '\n'

/-- Accumulator scanner for  re.sub(newline-run pattern, two newlines, s)
(query_chatgpt.py line 24): `k` counts the newline characters read since the
last non-newline character. -/
def collapseNLAux : Nat → List Char → List Char
  | k, [] => emitNL k
  | k, c :: s => if c = '\n' then collapseNLAux (k + 1) s else emitNL k ++ c :: collapseNLAux 0 s

/-- Sanitizer step 3: collapse runs of three or more newlines to exactly two
(query_chatgpt.py line 24). -/
def collapseNL (s : List Char) : List Char := collapseNLAux 0 s

/-- The whitespace class of Python `str.strip()` (restricted to the ASCII
whitespace characters; the inputs of interest are ASCII). -/
def pyIsSpace (c : Char) : Bool :=
  c == ' ' || c == '\t' || c == '\n' || c == '\r' || c == '\x0b' || c == '\x0c'

/-- Left part of Python `str.strip()`. -/
def lstripP (s : List Char) : List Char := s.dropWhile pyIsSpace

/-- Right part of Python `str.strip()`. -/
def rstripP (s : List Char) : List Char := (s.reverse.dropWhile pyIsSpace).reverse

/-- Python `str.strip()` (query_chatgpt.py line 30). -/
def pyStrip (s : List Char) : List Char := rstripP (lstripP s)

/-- Python `str.replace(ab, empty)` for a two-character pattern `a, b`:
left-to-right scan, removing non-overlapping occurrences and resuming after
each removal (query_chatgpt.py line 33). -/
def removeEsc (a b : Char) : List Char → List Char
  | [] => []
  | [c] => [c]
  | c :: d :: s => if c = a && d = b then removeEsc a b s else c :: removeEsc a b (d :: s)

/-- `clean_html_response` from query_chatgpt.py lines 14-36: strip leading and
trailing fence markers, collapse newline runs, remove remaining backticks,
trim surrounding whitespace, then delete the literal two-character escape
sequences backslash-n and backslash-r. -/
def clean_html_response (s : List Char) : List Char :=
  let c1 := sub1 s
  let c2 := sub2 c1
  let c3 := collapseNL c2
  let c4 := c3.filter (fun c => !(c == btick))
  let c5 := pyStrip c4
  let c6 := removeEsc bslash 'n' c5
  removeEsc bslash 'r' c6

/-- Python `s.startswith(p)` on the character-list model. -/
def startsWithL (p s : List Char) : Bool := (dropPat p s).isSome

/-- Python `s.endswith(p)` on the character-list model. -/
def endsWithL (p s : List Char) : Bool := startsWithL p.reverse s.reverse

/-- Substring test (`p in s` in Python). -/
def containsSub (p : List Char) : List Char → Bool
  | [] => (dropPat p []).isSome
  | c :: s => (dropPat p (c :: s)).isSome || containsSub p s

/-- Python `str.lower()` (ASCII model). -/
def pyLower (s : List Char) : List Char := s.map Char.toLower

/-- Python `str.upper()` (ASCII model). -/
def pyUpper (s : List Char) : List Char := s.map Char.toUpper

/-- `validate_html` from query_chatgpt.py lines 135-149: after stripping and
lower-casing, the document must start with the doctype declaration or an
opening html tag, and end with the closing html tag. -/
def validate_html (s : List Char) : Bool :=
  let t := pyLower (pyStrip s)
  let has_doctype := startsWithL (cs "<!doctype html>") t || startsWithL (cs "<html") t
  let has_closing := endsWithL (cs "</html>") t
  has_doctype && has_closing

/-- The allowed tones (main.py line 26). -/
def valid_tones : List (List Char) := [cs "formal", cs "semiformal", cs "casual", cs "playful"]

/-- The tone validation error message (main.py line 28, with the
comma-space join of the allowed values). -/
def toneMsg : List Char := cs "Tone must be one of: " ++ List.intercalate (cs ", ") valid_tones

/-- `BrandingRequest.validate_tone` from main.py lines 24-29. -/
def validate_tone (v : List Char) : Except (List Char) (List Char) :=
  if pyLower v ∈ valid_tones then Except.ok (pyLower v) else Except.error toneMsg

/-- The allowed design styles (main.py line 34). -/
def valid_styles : List (List Char) := [cs "modern", cs "minimalistic", cs "corporate", cs "artistic"]

/-- The design-style validation error message (main.py line 36). -/
def styleMsg : List Char := cs "Design style must be one of: " ++ List.intercalate (cs ", ") valid_styles

/-- `BrandingRequest.validate_design_style` from main.py lines 31-37. -/
def validate_design_style (v : List Char) : Except (List Char) (List Char) :=
  if pyLower v ∈ valid_styles then Except.ok (pyLower v) else Except.error styleMsg

/-- The character class `[0-9a-fA-F]` of the hex-color regex. -/
def isHexDigitPy (c : Char) : Bool :=
  ('0' ≤ c && c ≤ '9') || ('a' ≤ c && c ≤ 'f') || ('A' ≤ c && c ≤ 'F')

/-- One group `[0-9a-fA-F]{3}` of the hex-color regex: consume exactly three
hexadecimal digits. -/
def chunkHex3 : List Char → Option (List Char)
  | a :: b :: c :: r =>
    if isHexDigitPy a && isHexDigitPy b && isHexDigitPy c then some r else none
  | _ => none

/-- Python `$` without `re.MULTILINE`: matches at the end of the string or
just before a line feed that is the last character. -/
def dollarEnd (r : List Char) : Bool := r.isEmpty || r == ['\n']

/-- `re.match` of the pattern  ^#(?:[0-9a-fA-F]{3}){1,2}$  (main.py line 42):
a hash sign, then one or two groups of three hex digits (the greedy
two-group attempt and the one-group backtrack are both checked), then `$`. -/
def hexColorMatches (s : List Char) : Bool :=
  match s with
  | c :: r =>
    if c = '#' then
      match chunkHex3 r with
      | some r1 =>
        (match chunkHex3 r1 with
         | some r2 => dollarEnd r2
         | none => false) || dollarEnd r1
      | none => false
    else false
  | [] => false

/-- The hex-color validation error message (main.py line 44). -/
def colorMsg : List Char := cs "Primary color must be a valid HEX color (e.g., #FF5733 or #F57)"

/-- `BrandingRequest.validate_hex_color` from main.py lines 39-45. -/
def validate_hex_color (v : List Char) : Except (List Char) (List Char) :=
  if hexColorMatches v then Except.ok (pyUpper v) else Except.error colorMsg

/-- Acceptance condition exactly as claim C2 words it: a hash sign followed by
exactly 3 or exactly 6 hexadecimal digits and nothing else.  (Spec-side
definition, used to compare against the code's matcher.) -/
def claimHexAccept (s : List Char) : Bool :=
  match s with
  | c :: d => c == '#' && (d.length == 3 || d.length == 6) && d.all isHexDigitPy
  | [] => false

/-- The validated brand parameters (the dictionary built in main.py
lines 63-69). -/
structure BrandParams where
  company_name : String
  brand_identity : String
  tone : String
  design_style : String
  primary_color : String
deriving DecidableEq

/-- `tone_mappings` from query_chatgpt.py lines 46-51. -/
def tone_mappings : List (String × String) :=
  [("formal", "sophisticated, elegant, professional."),
   ("semiformal", "balanced, modern, approachable."),
   ("casual", "friendly, relaxed, inviting with playful."),
   ("playful", "fun, energetic, creative.")]

/-- `style_mappings` from query_chatgpt.py lines 54-59. -/
def style_mappings : List (String × String) :=
  [("modern", "gradients, glassmorphism, CSS Grid, flexbox, smooth shadows, parallax effects"),
   ("minimalistic", "clean lines, generous whitespace, subtle animations, focus on typography"),
   ("corporate", "structured layouts, professional color schemes, hover effects, card designs"),
   ("artistic", "creative layouts, bold typography, animated backgrounds, unique shapes, CSS art")]

/-- Python `dict.get(k, default)` on an association list. -/
def dictGet (m : List (String × String)) (k dflt : String) : String :=
  match m.find? (fun kv => kv.1 == k) with
  | some kv => kv.2
  | none => dflt

/-- `create_prompt_from_parameters` from query_chatgpt.py lines 39-95: a pure
string template over the brand parameters (the `print` on line 93 does not
affect the returned value and is not modelled). -/
def create_prompt_from_parameters (p : BrandParams) : String :=
  let tone_description := dictGet tone_mappings p.tone p.tone
  let style_features := dictGet style_mappings p.design_style p.design_style
  "\n    Create a stunning, modern, and highly interactive single-page website for "
    ++ p.company_name ++ ".\n    \n    MINIMAL REQUIREMENTS:\n    1. The website must include a header, features/services section, about us, and footer. \n    2. Use "
    ++ p.primary_color ++ " as the primary accent color throughout the design.\n    3. Ensure the website is fully responsive with media queries only using the top 3 common screens width and looks great on all devices (mobile, tablet, desktop).\n    4. Implement smooth scrolling and interactive hover effects.\n\n    STRICT REQUIREMENTS:\n    1. Return ONLY pure HTML code with embedded CSS. No explanations, no markdown, no comments.\n    2. Start directly with <!DOCTYPE html> and end with </html>\n    3. Do not add escape characters or backslashes.\n    4. Return only the HTML and CSS content. \n    5. No images. All visuals must be created using CSS only.\n    6. The whole website must fit within a single HTML file with embedded CSS.\n    \n    BRAND PARAMETERS:\n    - Company Name: "
    ++ p.company_name ++ " \n    - Brand Identity: "
    ++ p.brand_identity ++ "\n    - Tone: "
    ++ tone_description ++ "\n    - Design Style: "
    ++ style_features ++ "\n    - Primary Color: "
    ++ p.primary_color ++ " (use this as the main accent color)\n\n    Make this website visually stunning, memorable, and unique. Maintain usability and brand consistency. The website should feel "
    ++ tone_description ++ " and showcase "
    ++ style_features ++ ".\n    \n    IMPORTANT: Output ONLY the HTML code starting with <!DOCTYPE html>. No markdown, no backticks, no explanations, no break.\n    "

/-- The regex class `\w` (word character), ASCII model. -/
def isWordChar (c : Char) : Bool :=
  ('a' ≤ c && c ≤ 'z') || ('A' ≤ c && c ≤ 'Z') || ('0' ≤ c && c ≤ '9') || c == '_'

/-- The company-name slug used for file names and storage keys (main.py
line 84, s3_uploader.py line 58): delete every character that is neither a
word character, whitespace, nor a hyphen; trim surrounding whitespace;
replace space characters by underscores; lower-case. -/
def slugify (name : List Char) : List Char :=
  pyLower ((pyStrip (name.filter (fun c => isWordChar c || pyIsSpace c || c == '-'))).map
    (fun c => if c = ' ' then '_' else c))

/-- Outcome of the S3 provider calls made by `upload_html_to_s3` (put_object
plus generate_presigned_url), injected as a parameter: success carries the
provider-issued pre-signed URL. -/
inductive S3Outcome where
  | ok (presigned_url : List Char)
  | noCredentials
  | clientError (code : List Char) (msg : List Char)
deriving DecidableEq

/-- The kinds of exception the embedded code raises. -/
inductive PyErr where
  | valueError (msg : List Char)
  | exception (msg : List Char)
deriving DecidableEq

/-- Python `str(e)` of a raised exception. -/
def pyStr : PyErr → List Char
  | PyErr.valueError m => m
  | PyErr.exception m => m

/-- Whether an error is a `ValueError` (as opposed to a bare `Exception`). -/
def pyErrIsValueError : PyErr → Bool
  | PyErr.valueError _ => true
  | PyErr.exception _ => false

/-- The dictionary returned by `upload_html_to_s3` on success (s3_uploader.py
lines 102-110).  `sent_metadata` records the metadata dictionary passed to
put_object and `presign_expires_seconds` records the `ExpiresIn` argument
passed to generate_presigned_url, so that the arguments of the external calls
are observable. -/
structure S3UploadResult where
  s3_key : List Char
  bucket : List Char
  region : List Char
  public_url : List Char
  url_expires_in : List Char
  timestamp : List Char
  sent_metadata : List (List Char × List Char)
  presign_expires_seconds : Nat
deriving DecidableEq

/-- Python falsiness of `os.getenv` results: unset, or set to the empty
string. -/
def falsyStr : Option (List Char) → Bool
  | none => true
  | some s => s.isEmpty

/-- Metadata-key normalization (s3_uploader.py line 72): lower-case, then
underscores to hyphens. -/
def normalizeMetaKey (k : List Char) : List Char :=
  (pyLower k).map (fun c => if c = '_' then '-' else c)

/-- `upload_html_to_s3` from s3_uploader.py lines 35-125.  `bucket` is the
S3_BUCKET_NAME environment value, `provider` the injected outcome of the S3
calls, `ts` the `datetime.now` timestamp string.  The ValueError raised when
the bucket name is falsy propagates unchanged through the final generic
except clause; NoCredentialsError and ClientError are re-raised as bare
Exceptions built from the printed messages (the ClientError branch puts only
the provider's message, not its code, into the raised exception). -/
def upload_html_to_s3 (bucket : Option (List Char)) (region : List Char)
    (provider : S3Outcome) (html_content : List Char) (company_name : List Char)
    (ts : List Char) (metadata : List (List Char × List Char))
    (url_expiration_days : Nat) : Except PyErr S3UploadResult :=
  if falsyStr bucket then
    Except.error (PyErr.valueError (cs "S3_BUCKET_NAME not set in environment variables"))
  else
    match provider with
    | S3Outcome.noCredentials =>
        Except.error (PyErr.exception
          (cs "AWS credentials not found. Please set AWS_ACCESS_KEY_ID and AWS_SECRET_ACCESS_KEY"))
    | S3Outcome.clientError _code emsg =>
        Except.error (PyErr.exception (cs "S3 upload failed: " ++ emsg))
    | S3Outcome.ok url =>
        let s3_key := cs "brand-websites/" ++ slugify company_name ++ cs "_" ++ ts ++ cs ".html"
        let s3_metadata :=
          [(cs "company-name", company_name), (cs "upload-timestamp", ts),
           (cs "content-type", cs "text/html")]
            ++ metadata.map (fun kv => (normalizeMetaKey kv.1, kv.2))
        let expiration_seconds := url_expiration_days * 24 * 60 * 60
        Except.ok
          ⟨s3_key, bucket.getD [], region, url, cs "7 days", ts, s3_metadata, expiration_seconds⟩

/-- The raw request body of the generate-brand-content endpoint (main.py
lines 16-21). -/
structure BrandingRequest where
  company_name : List Char
  brand_identity : List Char
  tone : List Char
  design_style : List Char
  primary_color : List Char
deriving DecidableEq

/-- The `local_file` sub-dictionary of the endpoint response. -/
structure LocalFileInfo where
  filename : List Char
  filepath : List Char
deriving DecidableEq

/-- The success responses of the generate-brand-content endpoint (main.py
lines 109-124 and 129-139): with the S3 record, or local-only with an
attached storage-error note. -/
inductive GenResponse where
  | withS3 (success : Bool) (message : List Char) (local_file : LocalFileInfo)
      (s3_public_url : List Char) (s3_key : List Char) (s3_bucket : List Char)
      (s3_region : List Char) (company_name : List Char) (timestamp : List Char)
  | withoutS3 (success : Bool) (message : List Char) (local_file : LocalFileInfo)
      (s3_error : List Char) (company_name : List Char) (timestamp : List Char)
deriving DecidableEq

/-- The metadata dictionary the endpoint passes to the upload (main.py
lines 96-101). -/
def s3MetadataOf (brand_identity tone design_style primary_color : List Char) :
    List (List Char × List Char) :=
  [(cs "brand_identity", brand_identity), (cs "tone", tone),
   (cs "design_style", design_style), (cs "primary_color", primary_color)]

/-- The generate-brand-content endpoint (main.py lines 47-142).  `llm` is the
outcome of `query_chatgpt_function` (which may raise), `localWrite` the
outcome of writing the local file, `bucket`, `region` and `provider` the
storage configuration and provider outcome, `ts` the timestamp (the code
calls `datetime.now` a second time inside the upload; both calls are modelled
as returning the same instant).  Validation failures map to status 400;
failures of the LLM call or the local write are caught by the outer handler
as status 500; an upload failure is caught by the inner handler and the
endpoint still answers with the local file information plus the error note. -/
def generate_brand_content (req : BrandingRequest)
    (llm : Except (List Char) (List Char)) (localWrite : Except (List Char) Unit)
    (bucket : Option (List Char)) (region : List Char) (provider : S3Outcome)
    (ts : List Char) : Except (Nat × List Char) GenResponse :=
  match validate_tone req.tone with
  | Except.error m => Except.error (400, m)
  | Except.ok tone =>
  match validate_design_style req.design_style with
  | Except.error m => Except.error (400, m)
  | Except.ok design_style =>
  match validate_hex_color req.primary_color with
  | Except.error m => Except.error (400, m)
  | Except.ok primary_color =>
  let _prompt := create_prompt_from_parameters
    ⟨String.mk req.company_name, String.mk req.brand_identity, String.mk tone,
     String.mk design_style, String.mk primary_color⟩
  match llm with
  | Except.error m => Except.error (500, cs "Error generating content: " ++ m)
  | Except.ok html_content =>
  let _valid := validate_html html_content
  let filename := slugify req.company_name ++ cs "_" ++ ts ++ cs ".html"
  let filepath := cs "generated_websites/" ++ filename
  match localWrite with
  | Except.error m => Except.error (500, cs "Error generating content: " ++ m)
  | Except.ok _ =>
  match upload_html_to_s3 bucket region provider html_content req.company_name ts
      (s3MetadataOf req.brand_identity tone design_style primary_color) 7 with
  | Except.ok r =>
      Except.ok (GenResponse.withS3 true
        (cs "Website generated and uploaded to S3 successfully")
        ⟨filename, filepath⟩ r.public_url r.s3_key r.bucket r.region req.company_name ts)
  | Except.error e =>
      Except.ok (GenResponse.withoutS3 true
        (cs "Website generated locally, but S3 upload failed")
        ⟨filename, filepath⟩ (pyStr e) req.company_name ts)

/-- Detector for three consecutive newline characters (used to state that the
collapse step leaves no such run). -/
def hasTriple : List Char → Bool
  | a :: b :: c :: r => ((a == '\n') && (b == '\n') && (c == '\n')) || hasTriple (b :: c :: r)
  | _ => false

deriving instance DecidableEq for Except

/-! ## Generic helper lemmas -/

theorem dropPat_isSome_iff (p : List Char) : ∀ s : List Char,
    (dropPat p s).isSome = true ↔ ∃ t, s = p ++ t := by
  induction p with
  | nil => intro s; simp [dropPat]
  | cons a ps ih =>
    intro s
    cases s with
    | nil => simp [dropPat]
    | cons c s' =>
      by_cases h : c = a
      · subst h
        simp [dropPat, ih]
      · simp [dropPat, h]

theorem startsWithL_iff (p s : List Char) :
    startsWithL p s = true ↔ ∃ t, s = p ++ t := by
  unfold startsWithL
  exact dropPat_isSome_iff p s

theorem endsWithL_iff (p s : List Char) :
    endsWithL p s = true ↔ ∃ u, s = u ++ p := by
  unfold endsWithL
  rw [startsWithL_iff]
  constructor
  · rintro ⟨t, ht⟩
    refine ⟨t.reverse, ?_⟩
    have h2 := congrArg List.reverse ht
    simpa using h2
  · rintro ⟨u, rfl⟩
    exact ⟨u.reverse, by simp⟩

theorem mem_of_mem_dropWhile {p : Char → Bool} {l : List Char} {a : Char}
    (h : a ∈ l.dropWhile p) : a ∈ l :=
  (List.dropWhile_sublist p).mem h

theorem mem_of_mem_takeWhile {p : Char → Bool} {l : List Char} {a : Char}
    (h : a ∈ l.takeWhile p) : a ∈ l :=
  (List.takeWhile_sublist p).mem h

theorem mem_of_mem_pyStrip {l : List Char} {a : Char} (h : a ∈ pyStrip l) : a ∈ l := by
  unfold pyStrip rstripP lstripP at h
  rw [List.mem_reverse] at h
  have h2 := mem_of_mem_dropWhile h
  rw [List.mem_reverse] at h2
  exact mem_of_mem_dropWhile h2

/-! ## Claim C7 -/

/-- Claim C7 (confirmed): for every string d, validate_html d is true iff,
case-insensitively and after trimming surrounding whitespace, d starts with
the doctype declaration or an opening html tag and ends with the closing
html tag; in particular it is true for a doctype-to-closing-tag document and
false for a bare div element. -/
theorem C7_validate_html :
    (∀ d : List Char,
      validate_html d = true ↔
        (((∃ t, pyLower (pyStrip d) = cs "<!doctype html>" ++ t) ∨
          (∃ t, pyLower (pyStrip d) = cs "<html" ++ t)) ∧
         (∃ u, pyLower (pyStrip d) = u ++ cs "</html>")))
    ∧ validate_html (cs "<!DOCTYPE html>...</html>") = true
    ∧ validate_html (cs "<div>not a page</div>") = false := by
  refine ⟨?_, by decide, by decide⟩
  intro d
  unfold validate_html
  simp [Bool.and_eq_true, Bool.or_eq_true, startsWithL_iff, endsWithL_iff]

/-! ## Claim C6 -/

/-- Claim C6 (confirmed): the tone validator accepts a string iff its
lower-casing is one of the four allowed tones, returning the lower-cased
form; otherwise it fails with an error message that lists all four allowed
values. -/
theorem C6_tone_validator :
    (∀ v : List Char,
      (pyLower v ∈ valid_tones → validate_tone v = Except.ok (pyLower v)) ∧
      (pyLower v ∉ valid_tones → validate_tone v = Except.error toneMsg)) ∧
    (∀ t ∈ valid_tones, ∃ u w, toneMsg = u ++ t ++ w) := by
  constructor
  · intro v
    constructor <;> intro h <;> simp [validate_tone, h]
  · intro t ht
    simp only [valid_tones, List.mem_cons, List.not_mem_nil, or_false] at ht
    rcases ht with rfl | rfl | rfl | rfl
    · exact ⟨cs "Tone must be one of: ", cs ", semiformal, casual, playful", by decide⟩
    · exact ⟨cs "Tone must be one of: formal, ", cs ", casual, playful", by decide⟩
    · exact ⟨cs "Tone must be one of: formal, semiformal, ", cs ", playful", by decide⟩
    · exact ⟨cs "Tone must be one of: formal, semiformal, casual, ", cs "", by decide⟩

/-- Witness for C6: a mixed-case valid tone is accepted and normalized, and
a string outside the set is rejected with the listing message. -/
theorem C6_witness :
    validate_tone (cs "FORMAL") = Except.ok (cs "formal") ∧
    validate_tone (cs "fancy") = Except.error toneMsg :=
  ⟨(C6_tone_validator.1 (cs "FORMAL")).1 (by decide),
   (C6_tone_validator.1 (cs "fancy")).2 (by decide)⟩

/-! ## Claim C9 -/

/-- Claim C9 (confirmed): the prompt builder is a deterministic pure function
of the brand parameters; two parameter records with identical field values
produce identical prompt strings. -/
theorem C9_prompt_deterministic :
    ∀ p q : BrandParams, p.company_name = q.company_name →
      p.brand_identity = q.brand_identity → p.tone = q.tone →
      p.design_style = q.design_style → p.primary_color = q.primary_color →
      create_prompt_from_parameters p = create_prompt_from_parameters q := by
  intro p q h1 h2 h3 h4 h5
  cases p
  cases q
  simp_all

/-- Witness for C9 at a concrete parameter record. -/
theorem C9_witness :
    create_prompt_from_parameters ⟨"Acme Co", "crisp", "casual", "modern", "#ABC"⟩ =
      create_prompt_from_parameters ⟨"Acme Co", "crisp", "casual", "modern", "#ABC"⟩ :=
  C9_prompt_deterministic _ _ rfl rfl rfl rfl rfl

/-! ## Claim C10 -/

/-- Claim C10 (confirmed): every successful upload reports the literal string
7 days as url_expires_in regardless of the url_expiration_days argument,
while the pre-signed URL is issued with an expiry of
url_expiration_days * 86400 seconds, so the reported and actual expiries
disagree whenever the argument is not 7. -/
theorem C10_url_expiry_mismatch :
    ∀ (bucket : Option (List Char)) (region url html name ts : List Char)
      (meta : List (List Char × List Char)) (days : Nat),
      falsyStr bucket = false →
      ∃ r, upload_html_to_s3 bucket region (S3Outcome.ok url) html name ts meta days
              = Except.ok r
        ∧ r.url_expires_in = cs "7 days"
        ∧ r.presign_expires_seconds = days * 86400
        ∧ (days ≠ 7 → r.presign_expires_seconds ≠ 7 * 86400) := by
  intro bucket region url html name ts meta days hb
  simp only [upload_html_to_s3, hb, Bool.false_eq_true, if_false]
  refine ⟨_, rfl, rfl, ?_, ?_⟩
  · show days * 24 * 60 * 60 = days * 86400
    omega
  · intro h7
    show days * 24 * 60 * 60 ≠ 7 * 86400
    omega

/-- Witness for C10 with a 3-day expiration argument. -/
theorem C10_witness :
    ∃ r, upload_html_to_s3 (some (cs "bucket")) (cs "us-east-1") (S3Outcome.ok (cs "url"))
            (cs "<p>x</p>") (cs "Acme Co") (cs "20250101_000000") [] 3
          = Except.ok r
      ∧ r.url_expires_in = cs "7 days"
      ∧ r.presign_expires_seconds = 3 * 86400
      ∧ (3 ≠ 7 → r.presign_expires_seconds ≠ 7 * 86400) :=
  C10_url_expiry_mismatch (some (cs "bucket")) (cs "us-east-1") (cs "url") (cs "<p>x</p>")
    (cs "Acme Co") (cs "20250101_000000") [] 3 (by decide)

/-! ## Claim C2 -/

theorem dollarEnd_cases {r : List Char} (h : dollarEnd r = true) : r = [] ∨ r = ['\n'] := by
  simpa [dollarEnd, List.isEmpty_iff] using h

theorem chunkHex3_eq_some {r r' : List Char} (h : chunkHex3 r = some r') :
    ∃ a b c, r = a :: b :: c :: r' ∧ isHexDigitPy a = true ∧ isHexDigitPy b = true ∧
      isHexDigitPy c = true := by
  match r with
  | [] => simp [chunkHex3] at h
  | [_] => simp [chunkHex3] at h
  | [_, _] => simp [chunkHex3] at h
  | a :: b :: c :: t =>
    simp only [chunkHex3] at h
    by_cases hd : (isHexDigitPy a && isHexDigitPy b && isHexDigitPy c) = true
    · rw [if_pos hd] at h
      obtain rfl : t = r' := by injection h
      simp only [Bool.and_eq_true] at hd
      exact ⟨a, b, c, rfl, hd.1.1, hd.1.2, hd.2⟩
    · rw [if_neg hd] at h
      cases h

theorem length_eq_six {l : List Char} (h : l.length = 6) :
    ∃ a b c d e f, l = [a, b, c, d, e, f] := by
  match l with
  | [] => simp at h
  | [_] => simp at h
  | [_, _] => simp at h
  | [_, _, _] => simp at h
  | [_, _, _, _] => simp at h
  | [_, _, _, _, _] => simp at h
  | [a, b, c, d, e, f] => exact ⟨a, b, c, d, e, f, rfl⟩
  | _ :: _ :: _ :: _ :: _ :: _ :: _ :: t =>
    simp only [List.length_cons] at h
    omega

theorem hexColorMatches_iff (s : List Char) :
    hexColorMatches s = true ↔
      ∃ d, (s = '#' :: d ∨ s = '#' :: (d ++ ['\n'])) ∧
           (d.length = 3 ∨ d.length = 6) ∧ (∀ c ∈ d, isHexDigitPy c = true) := by
  constructor
  · intro h
    match s with
    | [] => simp [hexColorMatches] at h
    | c :: r =>
      simp only [hexColorMatches] at h
      by_cases hc : c = '#'
      case neg => rw [if_neg hc] at h; cases h
      subst hc
      rw [if_pos rfl] at h
      cases h3 : chunkHex3 r with
      | none => simp [h3] at h
      | some r1 =>
        simp only [h3] at h
        obtain ⟨a, b, c3, rfl, ha, hb, hc3⟩ := chunkHex3_eq_some h3
        rw [Bool.or_eq_true] at h
        cases h with
        | inr hd =>
          rcases dollarEnd_cases hd with rfl | rfl
          · refine ⟨[a, b, c3], Or.inl rfl, Or.inl rfl, ?_⟩
            intro x hx
            simp only [List.mem_cons, List.not_mem_nil, or_false] at hx
            rcases hx with rfl | rfl | rfl <;> assumption
          · refine ⟨[a, b, c3], Or.inr rfl, Or.inl rfl, ?_⟩
            intro x hx
            simp only [List.mem_cons, List.not_mem_nil, or_false] at hx
            rcases hx with rfl | rfl | rfl <;> assumption
        | inl hm =>
          cases h4 : chunkHex3 r1 with
          | none => simp [h4] at hm
          | some r2 =>
            simp only [h4] at hm
            obtain ⟨d, e, f, rfl, hd', he, hf⟩ := chunkHex3_eq_some h4
            rcases dollarEnd_cases hm with rfl | rfl
            · refine ⟨[a, b, c3, d, e, f], Or.inl rfl, Or.inr rfl, ?_⟩
              intro x hx
              simp only [List.mem_cons, List.not_mem_nil, or_false] at hx
              rcases hx with rfl | rfl | rfl | rfl | rfl | rfl <;> assumption
            · refine ⟨[a, b, c3, d, e, f], Or.inr rfl, Or.inr rfl, ?_⟩
              intro x hx
              simp only [List.mem_cons, List.not_mem_nil, or_false] at hx
              rcases hx with rfl | rfl | rfl | rfl | rfl | rfl <;> assumption
  · rintro ⟨d, hs, hlen, hhex⟩
    rcases hlen with h3 | h6
    · obtain ⟨a, b, c, rfl⟩ := List.length_eq_three.mp h3
      have ha := hhex a (by simp)
      have hb := hhex b (by simp)
      have hc := hhex c (by simp)
      rcases hs with rfl | rfl
      · simp [hexColorMatches, chunkHex3, ha, hb, hc, dollarEnd]
      · simp [hexColorMatches, chunkHex3, ha, hb, hc, dollarEnd]
    · obtain ⟨a, b, c, d', e, f, rfl⟩ := length_eq_six h6
      have ha := hhex a (by simp)
      have hb := hhex b (by simp)
      have hc := hhex c (by simp)
      have hd' := hhex d' (by simp)
      have he := hhex e (by simp)
      have hf := hhex f (by simp)
      rcases hs with rfl | rfl
      · simp [hexColorMatches, chunkHex3, ha, hb, hc, hd', he, hf, dollarEnd]
      · simp [hexColorMatches, chunkHex3, ha, hb, hc, hd', he, hf, dollarEnd]

/-- Counterexample to claim C2 as stated: the string hash-a-b-c-newline is not
a hash sign followed by exactly 3 or 6 hex digits and nothing else, yet the
validator accepts it (returning its upper-casing), because the regex anchor
of re.match also matches just before a trailing newline. -/
theorem C2_counterexample :
    validate_hex_color (cs "#abc\n") = Except.ok (cs "#ABC\n") ∧
    claimHexAccept (cs "#abc\n") = false := by
  constructor
  · decide
  · decide

/-- Claim C2 (corrected): the color validator accepts s iff s is a hash sign
followed by exactly 3 or exactly 6 hexadecimal digits, optionally followed by
one trailing newline and nothing else; on acceptance it returns s
upper-cased.  In particular strings with 1, 2, 4, 5 or 7+ hex digits, or
missing the hash sign, are rejected. -/
theorem C2_amended_hex_validator :
    ∀ s : List Char,
      ((∃ r, validate_hex_color s = Except.ok r) ↔
        ∃ d, (s = '#' :: d ∨ s = '#' :: (d ++ ['\n'])) ∧
             (d.length = 3 ∨ d.length = 6) ∧ (∀ c ∈ d, isHexDigitPy c = true)) ∧
      (∀ r, validate_hex_color s = Except.ok r → r = pyUpper s) := by
  intro s
  constructor
  · rw [← hexColorMatches_iff]
    unfold validate_hex_color
    cases hm : hexColorMatches s <;> simp [hm]
  · intro r hr
    unfold validate_hex_color at hr
    cases hm : hexColorMatches s with
    | true => rw [hm] at hr; simp at hr; exact hr.symm
    | false => rw [hm] at hr; simp at hr

/-- Witness for C2 at a mixed-case 6-digit color. -/
theorem C2_witness :
    ∃ r, validate_hex_color (cs "#a1B2c3") = Except.ok r ∧ r = pyUpper (cs "#a1B2c3") := by
  obtain ⟨r, hr⟩ := (C2_amended_hex_validator (cs "#a1B2c3")).1.mpr
    ⟨cs "a1B2c3", Or.inl (by decide), Or.inr (by decide), by decide⟩
  exact ⟨r, hr, (C2_amended_hex_validator (cs "#a1B2c3")).2 r hr⟩

/-! ## Claim C8 -/

/-- Counterexample to claim C8 as stated: the company name A-hyphen-B slugs
to a-hyphen-b, so the hyphen — a non-word character — is not stripped,
contrary to the claim that non-word characters are stripped from the slug. -/
theorem C8_counterexample :
    slugify (cs "A-B") = cs "a-b" ∧ isWordChar '-' = false ∧ '-' ∈ slugify (cs "A-B") := by
  refine ⟨by decide, by decide, by decide⟩

/-- Claim C8 (corrected): the storage key has the form
brand-websites/slug_timestamp.html where the slug is the company name with
every character that is neither a word character, whitespace, nor a hyphen
removed, surrounding whitespace trimmed, spaces replaced by underscores, and
lower-cased (so hyphens are kept); in particular the slug of Acme-space-Co is
acme_co. -/
theorem C8_amended_storage_key :
    (∀ (bucket : Option (List Char)) (region url html name ts : List Char)
        (meta : List (List Char × List Char)) (days : Nat),
        falsyStr bucket = false →
        ∃ r, upload_html_to_s3 bucket region (S3Outcome.ok url) html name ts meta days
                = Except.ok r
          ∧ r.s3_key = cs "brand-websites/" ++ slugify name ++ cs "_" ++ ts ++ cs ".html")
    ∧ slugify (cs "Acme Co") = cs "acme_co" := by
  constructor
  · intro bucket region url html name ts meta days hb
    simp only [upload_html_to_s3, hb, Bool.false_eq_true, if_false]
    exact ⟨_, rfl, rfl⟩
  · decide

/-- Witness for C8 at a concrete bucket and company name. -/
theorem C8_witness :
    ∃ r, upload_html_to_s3 (some (cs "bucket")) (cs "us-east-1") (S3Outcome.ok (cs "url"))
            (cs "<p>x</p>") (cs "Acme Co") (cs "20250101_000000") [] 7
          = Except.ok r
      ∧ r.s3_key = cs "brand-websites/" ++ slugify (cs "Acme Co") ++ cs "_"
          ++ cs "20250101_000000" ++ cs ".html" :=
  C8_amended_storage_key.1 (some (cs "bucket")) (cs "us-east-1") (cs "url") (cs "<p>x</p>")
    (cs "Acme Co") (cs "20250101_000000") [] 7 (by decide)

/-! ## Claim C4 -/

/-- Counterexample to claim C4 as stated: when the provider rejects the call
with error code NoSuchBucket, the raised error is a bare Exception whose
message contains the provider's message but not the provider's error code,
and it is of the same exception kind as the credentials-absent failure — so
the raised provider error does not carry the provider's error code and is not
a kind distinct from the credentials-absent failure. -/
theorem C4_counterexample :
    upload_html_to_s3 (some (cs "mybucket")) (cs "us-east-1")
        (S3Outcome.clientError (cs "NoSuchBucket") (cs "The specified bucket does not exist"))
        (cs "<p>x</p>") (cs "Acme") (cs "20250101_000000") [] 7
      = Except.error (PyErr.exception (cs "S3 upload failed: The specified bucket does not exist")) ∧
    containsSub (cs "NoSuchBucket") (cs "S3 upload failed: The specified bucket does not exist")
      = false ∧
    pyErrIsValueError (PyErr.exception (cs "S3 upload failed: The specified bucket does not exist"))
      = pyErrIsValueError (PyErr.exception
          (cs "AWS credentials not found. Please set AWS_ACCESS_KEY_ID and AWS_SECRET_ACCESS_KEY")) := by
  refine ⟨by decide, by decide, by decide⟩

/-- Claim C4 (corrected): the upload fails with
ValueError(S3_BUCKET_NAME not set in environment variables) when the bucket
name is unset or empty, with a bare Exception(AWS credentials not found ...)
when credentials are absent, and with a bare
Exception(S3 upload failed: provider-message) — carrying the provider's
message but not its error code — when the provider rejects the call; the
bucket-absent failure is distinguishable by exception kind, while the
credentials failure and the provider failure are distinguishable only by
their message text (the provider message always starts with the fixed
prefix S3 upload failed, which the credentials message does not). -/
theorem C4_amended_upload_errors :
    ∀ (bucket : Option (List Char)) (region url html name ts code emsg : List Char)
      (meta : List (List Char × List Char)) (days : Nat),
      (falsyStr bucket = true →
        ∀ provider, upload_html_to_s3 bucket region provider html name ts meta days
          = Except.error (PyErr.valueError (cs "S3_BUCKET_NAME not set in environment variables"))) ∧
      (falsyStr bucket = false →
        upload_html_to_s3 bucket region S3Outcome.noCredentials html name ts meta days
            = Except.error (PyErr.exception
                (cs "AWS credentials not found. Please set AWS_ACCESS_KEY_ID and AWS_SECRET_ACCESS_KEY"))
          ∧ upload_html_to_s3 bucket region (S3Outcome.clientError code emsg) html name ts meta days
            = Except.error (PyErr.exception (cs "S3 upload failed: " ++ emsg))
          ∧ ∃ r, upload_html_to_s3 bucket region (S3Outcome.ok url) html name ts meta days
              = Except.ok r) ∧
      pyErrIsValueError (PyErr.valueError (cs "S3_BUCKET_NAME not set in environment variables"))
        ≠ pyErrIsValueError (PyErr.exception (cs "S3 upload failed: " ++ emsg)) ∧
      startsWithL (cs "S3 upload failed: ") (cs "S3 upload failed: " ++ emsg) = true ∧
      startsWithL (cs "S3 upload failed: ")
        (cs "AWS credentials not found. Please set AWS_ACCESS_KEY_ID and AWS_SECRET_ACCESS_KEY")
        = false := by
  intro bucket region url html name ts code emsg meta days
  refine ⟨?_, ?_, by simp [pyErrIsValueError], ?_, by decide⟩
  · intro hb provider
    simp [upload_html_to_s3, hb]
  · intro hb
    refine ⟨?_, ?_, ?_⟩
    · simp [upload_html_to_s3, hb]
    · simp [upload_html_to_s3, hb]
    · simp only [upload_html_to_s3, hb, Bool.false_eq_true, if_false]
      exact ⟨_, rfl⟩
  · exact (startsWithL_iff _ _).mpr ⟨emsg, rfl⟩

/-- Witness for C4 covering the unavailable-bucket case and, for a set
bucket, the three provider outcomes. -/
theorem C4_witness :
    (∀ provider, upload_html_to_s3 none (cs "us-east-1") provider (cs "<p>x</p>") (cs "Acme")
        (cs "20250101_000000") [] 7
      = Except.error (PyErr.valueError (cs "S3_BUCKET_NAME not set in environment variables"))) ∧
    (upload_html_to_s3 (some (cs "bucket")) (cs "us-east-1") S3Outcome.noCredentials
        (cs "<p>x</p>") (cs "Acme") (cs "20250101_000000") [] 7
      = Except.error (PyErr.exception
          (cs "AWS credentials not found. Please set AWS_ACCESS_KEY_ID and AWS_SECRET_ACCESS_KEY"))
      ∧ upload_html_to_s3 (some (cs "bucket")) (cs "us-east-1")
          (S3Outcome.clientError (cs "AccessDenied") (cs "Access Denied"))
          (cs "<p>x</p>") (cs "Acme") (cs "20250101_000000") [] 7
        = Except.error (PyErr.exception (cs "S3 upload failed: " ++ cs "Access Denied"))
      ∧ ∃ r, upload_html_to_s3 (some (cs "bucket")) (cs "us-east-1") (S3Outcome.ok (cs "url"))
          (cs "<p>x</p>") (cs "Acme") (cs "20250101_000000") [] 7 = Except.ok r) :=
  ⟨(C4_amended_upload_errors none (cs "us-east-1") (cs "url") (cs "<p>x</p>") (cs "Acme")
      (cs "20250101_000000") (cs "AccessDenied") (cs "Access Denied") [] 7).1 (by decide),
   (C4_amended_upload_errors (some (cs "bucket")) (cs "us-east-1") (cs "url") (cs "<p>x</p>")
      (cs "Acme") (cs "20250101_000000") (cs "AccessDenied") (cs "Access Denied") [] 7).2.1
      (by decide)⟩

/-! ## Claim C5 -/

/-- Claim C5 (confirmed): when the storage upload raises any error after the
document has been generated and saved locally, the endpoint still returns a
success response carrying the local file's name and path together with the
attached storage-error note, instead of failing the request. -/
theorem C5_upload_failure_nonfatal :
    ∀ (req : BrandingRequest) (html : List Char) (bucket : Option (List Char))
      (region : List Char) (provider : S3Outcome) (ts : List Char)
      (tone design_style primary_color : List Char) (e : PyErr),
      validate_tone req.tone = Except.ok tone →
      validate_design_style req.design_style = Except.ok design_style →
      validate_hex_color req.primary_color = Except.ok primary_color →
      upload_html_to_s3 bucket region provider html req.company_name ts
          (s3MetadataOf req.brand_identity tone design_style primary_color) 7
        = Except.error e →
      generate_brand_content req (Except.ok html) (Except.ok ()) bucket region provider ts
        = Except.ok (GenResponse.withoutS3 true
            (cs "Website generated locally, but S3 upload failed")
            ⟨slugify req.company_name ++ cs "_" ++ ts ++ cs ".html",
             cs "generated_websites/" ++ (slugify req.company_name ++ cs "_" ++ ts ++ cs ".html")⟩
            (pyStr e) req.company_name ts) := by
  intro req html bucket region provider ts tone design_style primary_color e h1 h2 h3 h4
  unfold generate_brand_content
  rw [h1, h2, h3]
  dsimp only
  rw [h4]

/-- Witness for C5: with the bucket name unset, the upload raises and the
endpoint still answers with the local file information and the error note. -/
theorem C5_witness :
    generate_brand_content
        ⟨cs "Acme Co", cs "crisp identity", cs "CASUAL", cs "Modern", cs "#abc"⟩
        (Except.ok (cs "<!DOCTYPE html><html></html>")) (Except.ok ())
        none (cs "us-east-1") (S3Outcome.ok (cs "url")) (cs "20250101_000000")
      = Except.ok (GenResponse.withoutS3 true
          (cs "Website generated locally, but S3 upload failed")
          ⟨slugify (cs "Acme Co") ++ cs "_" ++ cs "20250101_000000" ++ cs ".html",
           cs "generated_websites/"
             ++ (slugify (cs "Acme Co") ++ cs "_" ++ cs "20250101_000000" ++ cs ".html")⟩
          (pyStr (PyErr.valueError (cs "S3_BUCKET_NAME not set in environment variables")))
          (cs "Acme Co") (cs "20250101_000000")) :=
  C5_upload_failure_nonfatal
    ⟨cs "Acme Co", cs "crisp identity", cs "CASUAL", cs "Modern", cs "#abc"⟩
    (cs "<!DOCTYPE html><html></html>") none (cs "us-east-1") (S3Outcome.ok (cs "url"))
    (cs "20250101_000000") (cs "casual") (cs "modern") (cs "#ABC")
    (PyErr.valueError (cs "S3_BUCKET_NAME not set in environment variables"))
    (by decide) (by decide) (by decide) (by decide)

/-! ## Sanitizer lemmas (for claims C1 and C3) -/

theorem fenceTail1_none {c : Char} (hc : c ≠ btick) (s : List Char) :
    fenceTail1 (c :: s) = none := by
  unfold fenceTail1
  have h1 : dropPat fence (c :: s) = none := by
    show dropPat [btick, btick, btick] (c :: s) = none
    simp [dropPat, hc]
  rw [h1]

theorem sub1F_id {s : List Char} (h : btick ∉ s) : ∀ fuel b, sub1F fuel b s = s := by
  induction s with
  | nil => intro fuel b; cases fuel <;> rfl
  | cons c t ih =>
    intro fuel b
    cases fuel with
    | zero => rfl
    | succ f =>
      have hc : c ≠ btick := fun hcc => h (hcc ▸ List.mem_cons_self c t)
      have ht : btick ∉ t := fun hm => h (List.mem_cons_of_mem c hm)
      show sub1F (f + 1) b (c :: t) = c :: t
      simp only [sub1F, fenceTail1_none hc]
      cases b <;> simp [ih ht]

theorem sub1_id {s : List Char} (h : btick ∉ s) : sub1 s = s := sub1F_id h _ _

theorem fenceTail2_none {s : List Char} (h : btick ∉ s) : fenceTail2 s = none := by
  unfold fenceTail2
  cases hdw : s.dropWhile isCRLF with
  | nil => rfl
  | cons c t =>
    have hc : c ∈ s := mem_of_mem_dropWhile (by rw [hdw]; exact List.mem_cons_self c t)
    have hcb : c ≠ btick := fun hcc => h (hcc ▸ hc)
    have h1 : dropPat fence (c :: t) = none := by
      show dropPat [btick, btick, btick] (c :: t) = none
      simp [dropPat, hcb]
    rw [h1]

theorem sub2F_id {s : List Char} (h : btick ∉ s) : ∀ fuel, sub2F fuel s = s := by
  induction s with
  | nil => intro fuel; cases fuel <;> rfl
  | cons c t ih =>
    intro fuel
    cases fuel with
    | zero => rfl
    | succ f =>
      have ht : btick ∉ t := fun hm => h (List.mem_cons_of_mem c hm)
      show sub2F (f + 1) (c :: t) = c :: t
      simp only [sub2F, fenceTail2_none h]
      simp [ih ht]

theorem sub2_id {s : List Char} (h : btick ∉ s) : sub2 s = s := sub2F_id h _

theorem removeEsc_id {a b : Char} {s : List Char} (h : a ∉ s) : removeEsc a b s = s := by
  induction s with
  | nil => rfl
  | cons c t ih =>
    have hc : c ≠ a := fun hh => h (hh ▸ List.mem_cons_self c t)
    have ht : a ∉ t := fun hm => h (List.mem_cons_of_mem c hm)
    cases t with
    | nil => rfl
    | cons d t' =>
      show removeEsc a b (c :: d :: t') = c :: d :: t'
      simp [removeEsc, hc, ih ht]

theorem mem_collapseNLAux {x : Char} : ∀ (l : List Char) (k : Nat),
    x ∈ collapseNLAux k l → x = '\n' ∨ x ∈ l := by
  intro l
  induction l with
  | nil =>
    intro k h
    unfold collapseNLAux emitNL at h
    exact Or.inl (List.eq_of_mem_replicate h)
  | cons c t ih =>
    intro k h
    unfold collapseNLAux at h
    by_cases hc : c = '\n'
    · rw [if_pos hc] at h
      rcases ih (k + 1) h with h1 | h1
      · exact Or.inl h1
      · exact Or.inr (List.mem_cons_of_mem c h1)
    · rw [if_neg hc] at h
      rcases List.mem_append.mp h with h1 | h1
      · unfold emitNL at h1
        exact Or.inl (List.eq_of_mem_replicate h1)
      · rcases List.mem_cons.mp h1 with rfl | h2
        · exact Or.inr (List.mem_cons_self _ _)
        · rcases ih 0 h2 with h3 | h3
          · exact Or.inl h3
          · exact Or.inr (List.mem_cons_of_mem c h3)

theorem mem_collapseNL {x : Char} {l : List Char} (h : x ∈ collapseNL l) :
    x = '\n' ∨ x ∈ l := mem_collapseNLAux l 0 h

theorem filter_btick_id {l : List Char} (h : btick ∉ l) :
    (l.filter (fun c => !(c == btick))) = l := by
  apply List.filter_eq_self.mpr
  intro a ha
  have hne : a ≠ btick := fun hab => h (hab ▸ ha)
  simp [hne]

theorem hasTriple_tail {a : Char} {t : List Char} (h : hasTriple (a :: t) = false) :
    hasTriple t = false := by
  cases t with
  | nil => rfl
  | cons b t' =>
    cases t' with
    | nil => simp [hasTriple]
    | cons c t'' =>
      simp only [hasTriple] at h
      exact (Bool.or_eq_false_iff.mp h).2

theorem hasTriple_cons_ne {c : Char} (hc : c ≠ '\n') (t : List Char) :
    hasTriple (c :: t) = hasTriple t := by
  cases t with
  | nil => simp [hasTriple]
  | cons b t' =>
    cases t' with
    | nil => simp [hasTriple]
    | cons d t'' => simp [hasTriple, hc]

theorem hasTriple_nl_cons {t : List Char} (h : t.head? ≠ some '\n') :
    hasTriple ('\n' :: t) = hasTriple t := by
  cases t with
  | nil => simp [hasTriple]
  | cons b t' =>
    have hb : b ≠ '\n' := by simpa using h
    cases t' with
    | nil => simp [hasTriple]
    | cons d t'' => simp [hasTriple, hb]

theorem hasTriple_two_nl {t : List Char} (h : t.head? ≠ some '\n') :
    hasTriple ('\n' :: '\n' :: t) = hasTriple t := by
  cases t with
  | nil => simp [hasTriple]
  | cons b t' =>
    have hb : b ≠ '\n' := by simpa using h
    simp only [hasTriple]
    rw [hasTriple_nl_cons h]
    simp [hb, hasTriple_cons_ne hb]

theorem hasTriple_append_left {u : List Char} : ∀ {t : List Char},
    hasTriple (t ++ u) = false → hasTriple t = false := by
  intro t
  induction t with
  | nil => intro _; rfl
  | cons a t' ih =>
    intro h
    cases t' with
    | nil => simp [hasTriple]
    | cons b t'' =>
      cases t'' with
      | nil => simp [hasTriple]
      | cons c r =>
        simp only [List.cons_append] at h
        simp only [hasTriple] at h ⊢
        rw [Bool.or_eq_false_iff] at h ⊢
        refine ⟨h.1, ih ?_⟩
        simpa using h.2

theorem hasTriple_append_right : ∀ (u t : List Char),
    hasTriple (u ++ t) = false → hasTriple t = false := by
  intro u
  induction u with
  | nil => intro t h; simpa using h
  | cons a u' ih =>
    intro t h
    exact ih t (hasTriple_tail (by simpa using h))

theorem hasTriple_replicate3 (k : Nat) (t : List Char) (hk : 3 ≤ k) :
    hasTriple (List.replicate k '\n' ++ t) = true := by
  obtain ⟨m, rfl⟩ : ∃ m, k = 3 + m := ⟨k - 3, by omega⟩
  rw [List.replicate_add]
  have h3 : List.replicate 3 '\n' = ['\n', '\n', '\n'] := rfl
  rw [h3]
  simp [hasTriple]

theorem hasTriple_collapseNLAux : ∀ (l : List Char) (k : Nat),
    hasTriple (collapseNLAux k l) = false := by
  intro l
  induction l with
  | nil =>
    intro k
    unfold collapseNLAux emitNL
    by_cases hk : 3 ≤ k
    · rw [if_pos hk]; decide
    · rw [if_neg hk]
      have hk' : k = 0 ∨ k = 1 ∨ k = 2 := by omega
      rcases hk' with rfl | rfl | rfl <;> decide
  | cons c t ih =>
    intro k
    unfold collapseNLAux
    by_cases hc : c = '\n'
    · rw [if_pos hc]; exact ih (k + 1)
    · rw [if_neg hc]
      have htail : hasTriple (c :: collapseNLAux 0 t) = false := by
        rw [hasTriple_cons_ne hc]; exact ih 0
      unfold emitNL
      by_cases hk : 3 ≤ k
      · rw [if_pos hk]
        have h2 : (List.replicate 2 '\n' ++ c :: collapseNLAux 0 t)
            = '\n' :: '\n' :: (c :: collapseNLAux 0 t) := rfl
        rw [h2, hasTriple_two_nl (by simp [hc])]
        exact htail
      · rw [if_neg hk]
        have hk' : k = 0 ∨ k = 1 ∨ k = 2 := by omega
        rcases hk' with rfl | rfl | rfl
        · simpa using htail
        · have h1 : (List.replicate 1 '\n' ++ c :: collapseNLAux 0 t)
              = '\n' :: (c :: collapseNLAux 0 t) := rfl
          rw [h1, hasTriple_nl_cons (by simp [hc])]
          exact htail
        · have h2 : (List.replicate 2 '\n' ++ c :: collapseNLAux 0 t)
              = '\n' :: '\n' :: (c :: collapseNLAux 0 t) := rfl
          rw [h2, hasTriple_two_nl (by simp [hc])]
          exact htail

theorem hasTriple_collapseNL (l : List Char) : hasTriple (collapseNL l) = false :=
  hasTriple_collapseNLAux l 0

theorem collapseNLAux_of_noTriple : ∀ (l : List Char) (k : Nat),
    hasTriple (List.replicate k '\n' ++ l) = false →
    collapseNLAux k l = List.replicate k '\n' ++ l := by
  intro l
  induction l with
  | nil =>
    intro k h
    have hk : ¬ 3 ≤ k := by
      intro hk3
      have h3 := hasTriple_replicate3 k [] hk3
      rw [h3] at h
      cases h
    unfold collapseNLAux emitNL
    rw [if_neg hk]
    simp
  | cons c t ih =>
    intro k h
    unfold collapseNLAux
    by_cases hc : c = '\n'
    · subst hc
      rw [if_pos rfl]
      have heq : List.replicate (k + 1) '\n' ++ t = List.replicate k '\n' ++ '\n' :: t := by
        rw [List.replicate_succ']
        simp
      rw [ih (k + 1) (by rw [heq]; exact h), heq]
    · rw [if_neg hc]
      have hk : ¬ 3 ≤ k := by
        intro hk3
        have h3 := hasTriple_replicate3 k (c :: t) hk3
        rw [h3] at h
        cases h
      have htt : hasTriple t = false := by
        have hsplit : List.replicate k '\n' ++ c :: t = (List.replicate k '\n' ++ [c]) ++ t := by
          simp
        rw [hsplit] at h
        exact hasTriple_append_right _ _ h
      have ht0 := ih 0 (by simpa using htt)
      unfold emitNL
      rw [if_neg hk, ht0]
      simp

theorem collapseNL_id {l : List Char} (h : hasTriple l = false) : collapseNL l = l := by
  have h0 := collapseNLAux_of_noTriple l 0 (by simpa using h)
  simpa [collapseNL] using h0

theorem dropWhile_head_false {p : Char → Bool} : ∀ {l : List Char} {a : Char},
    (l.dropWhile p).head? = some a → p a = false := by
  intro l
  induction l with
  | nil => intro a h; simp at h
  | cons c t ih =>
    intro a h
    by_cases hc : p c
    · rw [List.dropWhile_cons_of_pos hc] at h
      exact ih h
    · rw [List.dropWhile_cons_of_neg hc] at h
      simp only [List.head?_cons, Option.some.injEq] at h
      subst h
      simpa using hc

theorem dropWhile_self_of_head {p : Char → Bool} {l : List Char}
    (h : ∀ a, l.head? = some a → p a = false) : l.dropWhile p = l := by
  cases l with
  | nil => rfl
  | cons c t =>
    rw [List.dropWhile_cons_of_neg]
    simp [h c rfl]

theorem rstripP_decomp (t : List Char) :
    t = rstripP t ++ (t.reverse.takeWhile pyIsSpace).reverse := by
  unfold rstripP
  conv_lhs => rw [← List.reverse_reverse t,
    ← List.takeWhile_append_dropWhile (p := pyIsSpace) (l := t.reverse)]
  rw [List.reverse_append]

theorem pyStrip_idem (l : List Char) : pyStrip (pyStrip l) = pyStrip l := by
  have hhead : ∀ a, (pyStrip l).head? = some a → pyIsSpace a = false := by
    intro a ha
    have hdec := rstripP_decomp (lstripP l)
    have hua : (lstripP l).head? = some a := by
      rcases hT : pyStrip l with _ | ⟨c, T'⟩
      · rw [hT] at ha; simp at ha
      · rw [hT] at ha
        simp only [List.head?_cons, Option.some.injEq] at ha
        subst ha
        unfold pyStrip at hT
        rw [hT] at hdec
        rw [hdec]
        simp
    exact dropWhile_head_false (l := l) (by unfold lstripP at hua; rw [hua])
  have hLT : lstripP (pyStrip l) = pyStrip l := dropWhile_self_of_head hhead
  show rstripP (lstripP (pyStrip l)) = pyStrip l
  rw [hLT]
  show rstripP (rstripP (lstripP l)) = rstripP (lstripP l)
  unfold rstripP
  rw [List.reverse_reverse]
  rw [dropWhile_self_of_head (fun a ha => dropWhile_head_false ha)]

theorem hasTriple_pyStrip {l : List Char} (h : hasTriple l = false) :
    hasTriple (pyStrip l) = false := by
  have h1 : hasTriple (lstripP l) = false := by
    have hdec : l = l.takeWhile pyIsSpace ++ l.dropWhile pyIsSpace :=
      (List.takeWhile_append_dropWhile pyIsSpace l).symm
    rw [hdec] at h
    exact hasTriple_append_right _ _ h
  have hdec2 := rstripP_decomp (lstripP l)
  rw [hdec2] at h1
  exact hasTriple_append_left h1

theorem btick_not_mem_collapseNL {s : List Char} (hB : btick ∉ s) :
    btick ∉ collapseNL s := by
  intro h
  rcases mem_collapseNL h with h1 | h1
  · exact absurd h1 (by decide)
  · exact hB h1

theorem bslash_not_mem_collapseNL {s : List Char} (hS : bslash ∉ s) :
    bslash ∉ collapseNL s := by
  intro h
  rcases mem_collapseNL h with h1 | h1
  · exact absurd h1 (by decide)
  · exact hS h1

theorem clean_eq_strip_collapse {s : List Char} (hB : btick ∉ s) (hS : bslash ∉ s) :
    clean_html_response s = pyStrip (collapseNL s) := by
  have hcB : btick ∉ collapseNL s := btick_not_mem_collapseNL hB
  have hsS : bslash ∉ pyStrip (collapseNL s) :=
    fun h => (bslash_not_mem_collapseNL hS) (mem_of_mem_pyStrip h)
  show removeEsc bslash 'r' (removeEsc bslash 'n'
      (pyStrip ((collapseNL (sub2 (sub1 s))).filter (fun c => !(c == btick)))))
    = pyStrip (collapseNL s)
  rw [sub1_id hB, sub2_id hB, filter_btick_id hcB, removeEsc_id hsS, removeEsc_id hsS]

/-! ## Claim C1 -/

/-- Counterexample to claim C1 as stated: the sanitizer is not idempotent.
A backtick separating two double-newline runs is removed by the backtick
step after the newline-collapse step has already run, leaving a four-newline
run that a second pass collapses; and removing one literal backslash-n
escape can create a new one that only a second pass removes. -/
theorem C1_counterexample :
    clean_html_response (clean_html_response (cs "a\n\n`\n\nb"))
        ≠ clean_html_response (cs "a\n\n`\n\nb") ∧
    clean_html_response (clean_html_response (cs "\\\\nn"))
        ≠ clean_html_response (cs "\\\\nn") := by
  constructor <;> decide

/-- Claim C1 (corrected): the sanitizer is idempotent on every input that
contains no backtick and no backslash characters (the two character classes
whose late removal can create new work for a second pass). -/
theorem C1_amended_idempotent :
    ∀ s : List Char, btick ∉ s → bslash ∉ s →
      clean_html_response (clean_html_response s) = clean_html_response s := by
  intro s hB hS
  rw [clean_eq_strip_collapse hB hS]
  have hTB : btick ∉ pyStrip (collapseNL s) :=
    fun h => (btick_not_mem_collapseNL hB) (mem_of_mem_pyStrip h)
  have hTS : bslash ∉ pyStrip (collapseNL s) :=
    fun h => (bslash_not_mem_collapseNL hS) (mem_of_mem_pyStrip h)
  rw [clean_eq_strip_collapse hTB hTS]
  have h3 : hasTriple (pyStrip (collapseNL s)) = false :=
    hasTriple_pyStrip (hasTriple_collapseNL s)
  rw [collapseNL_id h3]
  exact pyStrip_idem (collapseNL s)

/-- Witness for C1 on a backtick-free, backslash-free document. -/
theorem C1_witness :
    clean_html_response (clean_html_response (cs "<!DOCTYPE html>\n\n\n<html></html>"))
      = clean_html_response (cs "<!DOCTYPE html>\n\n\n<html></html>") :=
  C1_amended_idempotent (cs "<!DOCTYPE html>\n\n\n<html></html>") (by decide) (by decide)

theorem sub1_strips_leading (s : List Char) (hB : btick ∉ s) :
    sub1 ([btick, btick, btick, 'h', 't', 'm', 'l', '\n'] ++ s) = s.dropWhile isCRLF := by
  have hBd : btick ∉ s.dropWhile isCRLF := fun h => hB (mem_of_mem_dropWhile h)
  have hft : fenceTail1 ([btick, btick, btick, 'h', 't', 'm', 'l', '\n'] ++ s)
      = some ((('\n' :: s.takeWhile isCRLF).getLast? == some '\n'), s.dropWhile isCRLF) := by
    show fenceTail1 (btick :: btick :: btick :: 'h' :: 't' :: 'm' :: 'l' :: '\n' :: s) = _
    unfold fenceTail1
    have h1 : dropPat fence (btick :: btick :: btick :: 'h' :: 't' :: 'm' :: 'l' :: '\n' :: s)
        = some ('h' :: 't' :: 'm' :: 'l' :: '\n' :: s) := by
      show dropPat [btick, btick, btick] _ = _
      simp [dropPat]
    rw [h1]
    dsimp only
    have h2 : dropPat (cs "html") ('h' :: 't' :: 'm' :: 'l' :: '\n' :: s) = some ('\n' :: s) := by
      have hh : cs "html" = ['h', 't', 'm', 'l'] := by decide
      rw [hh]
      simp [dropPat]
    rw [h2]
    dsimp only
    rw [List.takeWhile_cons_of_pos (show isCRLF '\n' = true by decide),
      List.dropWhile_cons_of_pos (show isCRLF '\n' = true by decide)]
  unfold sub1
  have hlen : ([btick, btick, btick, 'h', 't', 'm', 'l', '\n'] ++ s).length
      = s.length + 7 + 1 := by
    simp
  rw [hlen]
  show sub1F (s.length + 7 + 1) true
      (btick :: btick :: btick :: 'h' :: 't' :: 'm' :: 'l' :: '\n' :: s) = _
  simp only [sub1F, if_true, hft]
  exact sub1F_id hBd _ _

theorem sub2F_nil : ∀ f, sub2F f [] = [] := by
  intro f
  cases f <;> rfl

theorem dropWhile_ne_nil {p : Char → Bool} : ∀ {l : List Char} {x : Char},
    x ∈ l → p x = false → l.dropWhile p ≠ [] := by
  intro l
  induction l with
  | nil => intro x hx; cases hx
  | cons c t ih =>
    intro x hx hpx
    by_cases hpc : p c
    · rw [List.dropWhile_cons_of_pos hpc]
      rcases List.mem_cons.mp hx with rfl | hxt
      · rw [hpx] at hpc; cases hpc
      · exact ih hxt hpx
    · rw [List.dropWhile_cons_of_neg hpc]
      simp

theorem sub2F_append_fence : ∀ (s : List Char) (f : Nat), btick ∉ s →
    (∀ a, s.getLast? = some a → isCRLF a = false) → s.length + 4 ≤ f →
    sub2F f (s ++ ['\n', btick, btick, btick]) = s := by
  intro s
  induction s with
  | nil =>
    intro f _ _ hf
    cases f with
    | zero => omega
    | succ f' =>
      show sub2F (f' + 1) ('\n' :: btick :: btick :: btick :: []) = []
      simp only [sub2F,
        show fenceTail2 ('\n' :: btick :: btick :: btick :: []) = some [] from by decide]
      exact sub2F_nil f'
  | cons c t ih =>
    intro f hB hLast hf
    have htB : btick ∉ t := fun h => hB (List.mem_cons_of_mem c h)
    cases f with
    | zero => simp at hf
    | succ f' =>
      have hnone : fenceTail2 (c :: (t ++ ['\n', btick, btick, btick])) = none := by
        have hlastmem : ∃ x ∈ c :: t, isCRLF x = false := by
          cases hgl : (c :: t).getLast? with
          | none => simp at hgl
          | some a =>
            exact ⟨a, List.mem_of_mem_getLast? (Option.mem_def.mpr hgl), hLast a hgl⟩
        obtain ⟨x, hxmem, hxcr⟩ := hlastmem
        have hne : ¬ ((c :: t).dropWhile isCRLF).isEmpty = true := by
          simp only [List.isEmpty_iff]
          exact dropWhile_ne_nil hxmem hxcr
        unfold fenceTail2
        rw [show (c :: (t ++ ['\n', btick, btick, btick]))
              = (c :: t) ++ ['\n', btick, btick, btick] from by simp]
        rw [List.dropWhile_append, if_neg hne]
        obtain ⟨d, w, hdw⟩ : ∃ d w, (c :: t).dropWhile isCRLF = d :: w := by
          cases hh : (c :: t).dropWhile isCRLF with
          | nil => rw [hh] at hne; simp at hne
          | cons d w => exact ⟨d, w, rfl⟩
        rw [hdw]
        have hd_mem : d ∈ c :: t :=
          mem_of_mem_dropWhile (by rw [hdw]; exact List.mem_cons_self _ _)
        have hdb : d ≠ btick := fun h => hB (h ▸ hd_mem)
        have h1 : dropPat fence (d :: (w ++ ['\n', btick, btick, btick])) = none := by
          show dropPat [btick, btick, btick] _ = _
          simp [dropPat, hdb]
        rw [List.cons_append, h1]
      show sub2F (f' + 1) (c :: (t ++ ['\n', btick, btick, btick])) = c :: t
      simp only [sub2F, hnone]
      have hlast' : ∀ a, t.getLast? = some a → isCRLF a = false := by
        intro a ha
        apply hLast
        cases t with
        | nil => simp at ha
        | cons d t' => rw [List.getLast?_cons_cons]; exact ha
      have hlen : t.length + 4 ≤ f' := by
        simp only [List.length_cons] at hf
        omega
      rw [ih f' htB hlast' hlen]

theorem sub2_strips_trailing (s : List Char) (hB : btick ∉ s)
    (hLast : ∀ a, s.getLast? = some a → isCRLF a = false) :
    sub2 (s ++ ['\n', btick, btick, btick]) = s := by
  unfold sub2
  apply sub2F_append_fence s _ hB hLast
  simp

/-! ## Claim C3 -/

/-- Counterexample to claim C3 as stated: a fence marker tagged html at the
start of an interior line — strictly inside the text — is removed by the
leading-fence step, because the regex runs with re.MULTILINE. -/
theorem C3_counterexample :
    sub1 (cs "a\n```html\nb") = cs "a\nb" ∧
    sub1 (cs "a\n```html\nb") ≠ cs "a\n```html\nb" := by
  constructor <;> decide

/-- Claim C3 (corrected): because both substitutions run with re.MULTILINE,
the first step strips a fence marker (optionally tagged html, together with
the following newline run) at the start of every line — including but not
only the very start of the input — and the second strips a fence marker
(together with the preceding newline run) ending at the end of every line —
including but not only the very end; a fence marker lying strictly inside a
line is removed by neither step. -/
theorem C3_amended_fence_stripping :
    (∀ s : List Char, btick ∉ s →
        sub1 ([btick, btick, btick, 'h', 't', 'm', 'l', '\n'] ++ s) = s.dropWhile isCRLF)
    ∧ (∀ s : List Char, btick ∉ s → (∀ a, s.getLast? = some a → isCRLF a = false) →
        sub2 (s ++ ['\n', btick, btick, btick]) = s)
    ∧ sub1 (cs "a\n```html\nb") = cs "a\nb"
    ∧ sub2 (cs "a```\nb") = cs "a\nb"
    ∧ sub1 (cs "a```b") = cs "a```b"
    ∧ sub2 (cs "a```b") = cs "a```b" :=
  ⟨sub1_strips_leading, sub2_strips_trailing, by decide, by decide, by decide, by decide⟩

/-- Witness for C3 on a concrete fenced document. -/
theorem C3_witness :
    sub1 ([btick, btick, btick, 'h', 't', 'm', 'l', '\n'] ++ cs "<p>x</p>")
        = (cs "<p>x</p>").dropWhile isCRLF
    ∧ sub2 (cs "<p>x</p>" ++ ['\n', btick, btick, btick]) = cs "<p>x</p>" :=
  ⟨C3_amended_fence_stripping.1 (cs "<p>x</p>") (by decide),
   C3_amended_fence_stripping.2.1 (cs "<p>x</p>") (by decide) (by decide)⟩
